import Mathlib

/-!
Verification of the core logic of the zkp2p telegram-tracker bot
(src/bot.js), shallowly embedded in Lean 4.

The embedding covers:
* the transaction reconciliation engine (pendingTransactions table,
  `scheduleTransactionProcessing`, `processCompletedTransaction`);
* the orchestrator notification guards
  (`sendOrchestratorFulfilledNotification`, `sendOrchestratorPrunedNotification`);
* the two rate caches (`getExchangeRates`, `getARSRate`);
* the sniper arbitrage detection (`checkSniperOpportunity`,
  `DatabaseManager.getUserThreshold`);
* the resilient WebSocket provider state machine
  (`scheduleReconnect`, `restart`, `destroy`, `isConnected`, the
  reconnect delay computation, and the health-check driven restart).

JavaScript numbers are modelled as exact rationals, JS `Set`/`Map` as
insertion-ordered duplicate-free lists / association lists, timers and
asynchronous callbacks as explicit events of small state machines.
-/

namespace TrackerBot

/-! ### Transaction reconciliation engine (bot.js 1057-1109, 2002-2066, 2305-2368) -/

/-- Kind of a state-changing intent event (`IntentFulfilled` / `IntentPruned`). -/
inductive EvKind where
  | fulfilled
  | pruned
deriving DecidableEq, Repr

/-- Which contract emitted the event: legacy Escrow handler
(`handleContractEvent`) or Orchestrator handler (`handleOrchestratorEvent`).
The orchestrator handlers tag their raw intents with `eventType: 'orchestrator'`. -/
inductive EvSource where
  | escrow
  | orchestrator
deriving DecidableEq, Repr

/-- One decoded state-changing event for a single transaction hash.
Intent ids are opaque (the code lowercases the `intentHash` before use as a
key; we take ids already normalised). -/
structure TxEvent where
  intentId : Nat
  kind : EvKind
  source : EvSource
deriving DecidableEq, Repr

/-- The payload stored in `txData.rawIntents` under an intent id: the last
event written for that id (JS `Map.set` overwrites).  Only the fields that
drive control flow are kept: the id itself, the event kind (`type` field)
and the `eventType` tag selecting the notification path. -/
structure RawIntent where
  intentId : Nat
  kind : EvKind
  source : EvSource
deriving DecidableEq, Repr

/-- The per-transaction entry of the `pendingTransactions` map:
`{fulfilled: Set, pruned: Set, rawIntents: Map}` (the `blockNumber` field is
not read by the reconciliation and is omitted). Sets are insertion-ordered
duplicate-free lists, the map an insertion-ordered association list. -/
structure PendingTx where
  fulfilled : List Nat
  pruned : List Nat
  rawIntents : List (Nat × RawIntent)
deriving DecidableEq, Repr

/-- JS `Set.add`: no-op when the element is present, else append. -/
def setAdd (l : List Nat) (x : Nat) : List Nat :=
  if x ∈ l then l else l ++ [x]

/-- JS `Map.set`: overwrite the value at an existing key (keeping its
position), else append the new binding. -/
def mapSet (m : List (Nat × RawIntent)) (k : Nat) (v : RawIntent) :
    List (Nat × RawIntent) :=
  match m with
  | [] => [(k, v)]
  | (k₀, v₀) :: rest =>
    if k₀ = k then (k, v) :: rest else (k₀, v₀) :: mapSet rest k v

/-- JS `Map.get`: first (unique) binding for the key, if any. -/
def mapGet (m : List (Nat × RawIntent)) (k : Nat) : Option RawIntent :=
  match m with
  | [] => none
  | (k₀, v₀) :: rest => if k₀ = k then some v₀ else mapGet rest k

/-- Recording one `IntentFulfilled` / `IntentPruned` event into the
transaction's `pendingTransactions` entry (bot.js 2010-2035, 2046-2065,
2313-2335, 2347-2366): add the id to the matching set and store the raw
payload under the id. -/
def recordEvent (tx : PendingTx) (e : TxEvent) : PendingTx :=
  match e.kind with
  | .fulfilled =>
    { fulfilled := setAdd tx.fulfilled e.intentId
      pruned := tx.pruned
      rawIntents := mapSet tx.rawIntents e.intentId
        ⟨e.intentId, .fulfilled, e.source⟩ }
  | .pruned =>
    { fulfilled := tx.fulfilled
      pruned := setAdd tx.pruned e.intentId
      rawIntents := mapSet tx.rawIntents e.intentId
        ⟨e.intentId, .pruned, e.source⟩ }

/-- The `pendingTransactions` entry for one transaction hash after a
sequence of its events has been recorded (entry created on first event with
empty sets, then folded). -/
def buildPendingTx (events : List TxEvent) : PendingTx :=
  events.foldl recordEvent ⟨[], [], []⟩

/-- Terminal outcome kind dispatched for an intent by
`processCompletedTransaction`. -/
inductive OutcomeKind where
  | fulfilled
  | cancelled
deriving DecidableEq, Repr

/-- One outcome dispatched by the reconciliation: which intent, which
terminal state, and the raw payload handed to the notification function. -/
structure Outcome where
  intentId : Nat
  kind : OutcomeKind
  raw : RawIntent
deriving DecidableEq, Repr

/-- The body of the pruned loop of `processCompletedTransaction` (bot.js
1078-1093) for one pruned intent id: skip when the id is also fulfilled
(log-suppressed), else dispatch a cancellation with the stored raw payload
(`if (rawIntent)` guard: nothing dispatched when no payload is stored). -/
def prunedDispatch (tx : PendingTx) (i : Nat) : Option Outcome :=
  if i ∈ tx.fulfilled then none
  else
    match mapGet tx.rawIntents i with
    | some raw => some ⟨i, .cancelled, raw⟩
    | none => none

/-- The body of the fulfilled loop of `processCompletedTransaction`
(bot.js 1096-1105) for one fulfilled intent id: dispatch a fulfilment with
the stored raw payload. -/
def fulfilledDispatch (tx : PendingTx) (i : Nat) : Option Outcome :=
  match mapGet tx.rawIntents i with
  | some raw => some ⟨i, .fulfilled, raw⟩
  | none => none

/-- `processCompletedTransaction` (bot.js 1071-1109): for each pruned
intent, skip when also fulfilled, else dispatch a cancellation; then for
each fulfilled intent dispatch a fulfilment.  Each dispatch invokes the
notification function selected by the raw intent's `eventType`. -/
def processCompletedTransaction (tx : PendingTx) : List Outcome :=
  tx.pruned.filterMap (prunedDispatch tx) ++
    tx.fulfilled.filterMap (fulfilledDispatch tx)

/-! ### Orchestrator notification guard (bot.js 1209-1218, 1281-1290) -/

/-- The stored-details guard at the top of
`sendOrchestratorFulfilledNotification` and
`sendOrchestratorPrunedNotification`: both look up
`orchestratorIntentDetails.get(intentHashLower)` and return immediately
(only logging) when no entry exists.  `details` says whether the map holds
an entry for an intent id (an entry is written only by the orchestrator
`IntentSignaled` handler, bot.js 2229).  Escrow-path notifications have no
such guard and pass through.  The interested-user filters further down the
notification bodies are outside the scope of this guard. -/
def deliverOutcome (details : Nat → Bool) (o : Outcome) : Option Outcome :=
  match o.raw.source with
  | .escrow => some o
  | .orchestrator => if details o.intentId then some o else none

/-- The outcomes of a reconciliation that survive the orchestrator
stored-details guard and proceed into notification delivery. -/
def deliveredNotifications (details : Nat → Bool) (tx : PendingTx) :
    List Outcome :=
  (processCompletedTransaction tx).filterMap (deliverOutcome details)

/-- Structural invariant of a `pendingTransactions` entry built from
events: the two id sets are duplicate-free and every id in either set has a
raw payload stored under it. -/
def PendingTxInv (tx : PendingTx) : Prop :=
  tx.fulfilled.Nodup ∧ tx.pruned.Nodup ∧
    ∀ i, i ∈ tx.fulfilled ∨ i ∈ tx.pruned →
      (mapGet tx.rawIntents i).isSome = true

/-! ### Rate caches (bot.js 592-656)

Both caches are a module-level pair of variables
(`exchangeRatesCache`/`lastRatesFetch`, `arsRateCache`/`lastARSFetch`) with a
60000 ms freshness window (`RATES_CACHE_DURATION`, `ARS_CACHE_DURATION`).
A read consults the cache; on miss or expiry it performs exactly one
outbound fetch, whose result (already extracted payload, or `none` for a
network error / malformed body) is an input of the model.  The read
returns the served value, whether an outbound fetch was made, and the new
cache state. -/

/-- Cache state for one currency slot: last successful payload (JS `null`
as `none`) and its fetch time in ms. Initial state is `⟨none, 0⟩`. -/
structure RateCache (α : Type) where
  cache : Option α
  lastFetch : Nat
deriving DecidableEq

/-- `getExchangeRates` (bot.js 601-626), one read at time `now`:
serve the cache while non-null and younger than 60000 ms, else fetch; a
successful fetch (`data.result === 'success'`) installs the payload and
timestamp, a failed one returns `null` leaving the cache variables
untouched.  `fetchResult` is the outcome of the single outbound request
made in the else-branch. -/
def getExchangeRates {α : Type} (now : Nat) (fetchResult : Option α)
    (s : RateCache α) : Option α × Bool × RateCache α :=
  if s.cache.isSome && decide (now - s.lastFetch < 60000) then
    (s.cache, false, s)
  else
    match fetchResult with
    | some r => (some r, true, ⟨some r, now⟩)
    | none => (none, true, s)

/-- `getARSRate` (bot.js 629-656): same discipline for the dedicated ARS
slot; the cached value is a number, so the JS truthiness test
`arsRateCache && ...` also treats a cached 0 as a miss.  A valid response
yields the USDC mid price, which the model takes as the prepared
`fetchResult`. -/
def getARSRate (now : Nat) (fetchResult : Option ℚ) (s : RateCache ℚ) :
    Option ℚ × Bool × RateCache ℚ :=
  if (match s.cache with
      | some r => decide (r ≠ 0)
      | none => false) && decide (now - s.lastFetch < 60000) then
    (s.cache, false, s)
  else
    match fetchResult with
    | some r => (some r, true, ⟨some r, now⟩)
    | none => (none, true, s)

/-! ### Sniper arbitrage detection (bot.js 429-442, 1440-1550) -/

/-- `DatabaseManager.getUserThreshold` (bot.js 430-442): the stored row's
threshold through the falsy-coercing default `data?.threshold || 0.2`.
`none` covers both "no active row" and a read error (either way `data` is
null); a stored threshold of exactly 0 is falsy and also yields 0.2. -/
def getUserThreshold (stored : Option ℚ) : ℚ :=
  match stored with
  | none => 0.2
  | some t => if t = 0 then 0.2 else t

/-- The fixed always-included broadcast subscriber (`ZKP2P_GROUP_ID`,
bot.js 518). -/
def ZKP2P_GROUP_ID : Int := -1001928949520

/-- External world of one `checkSniperOpportunity` run: the market-rate
reads already resolved (results of `getARSRate()` / `getExchangeRates()`),
the subscriber store, and the per-chat alert delivery outcome
(`postToDiscord`, which can reject). -/
structure SniperEnv where
  arsRate : Option ℚ
  exchangeRates : Option (String → Option ℚ)
  thresholds : Int → Option ℚ
  interestedUsers : List Int
  delivery : Int → Except Unit Unit

/-- One emitted sniper alert (bot.js 1498-1542): the alert message carries
the deposit id, currency, platform, deposit rate, market rate, percentage
difference and face amount. -/
structure Alert where
  chatId : Int
  depositId : Nat
  currency : String
  platform : String
  depositRate : ℚ
  marketRate : ℚ
  percentDiff : ℚ
  faceAmount : Nat
deriving DecidableEq

/-- Market rate resolution (bot.js 1448-1471): ARS through the CriptoYa
slot, USD hard-coded to 1.0, anything else through the general table; the
falsy checks `if (!marketRate)` make a 0 rate unresolvable too.  `none`
means the sniper check is skipped for this cycle. -/
def resolveMarketRate (env : SniperEnv) (code : String) : Option ℚ :=
  if code = "ARS" then
    match env.arsRate with
    | some r => if r = 0 then none else some r
    | none => none
  else if code = "USD" then some 1
  else
    match env.exchangeRates with
    | some rates =>
      match rates code with
      | some r => if r = 0 then none else some r
      | none => none
    | none => none

/-- The per-user loop of `checkSniperOpportunity` (bot.js 1491-1546), run
sequentially over the candidate list: read the personal threshold, compare
`percentageDiff >= userThreshold`; on a hit, deliver the alert (awaited
Discord mirror) and continue — unless the delivery rejects, which aborts
the remaining iterations.  Returns (candidates actually evaluated, alerts
delivered, first failing chat id if any). -/
def sniperLoop (env : SniperEnv) (mk : Int → Alert) (pd : ℚ) :
    List Int → List Int × List Alert × Option Int
  | [] => ([], [], none)
  | c :: rest =>
    if pd ≥ getUserThreshold (env.thresholds c) then
      match env.delivery c with
      | .error _ => ([c], [], some c)
      | .ok _ =>
        let r := sniperLoop env mk pd rest
        (c :: r.1, mk c :: r.2.1, r.2.2)
    else
      let r := sniperLoop env mk pd rest
      (c :: r.1, r.2.1, r.2.2)

/-- The candidate list (bot.js 1482-1486): the subscribers matching
currency and platform, with `ZKP2P_GROUP_ID` pushed at the end when
absent. -/
def sniperCandidates (users : List Int) : List Int :=
  if ZKP2P_GROUP_ID ∈ users then users else users ++ [ZKP2P_GROUP_ID]

/-- `checkSniperOpportunity` (bot.js 1440-1550).  `currencyCode` is the
result of the `currencyHashToCode` lookup (`none` = unknown currency,
skipped silently); `conversionRate` is the raw 18-decimal fixed-point
value.  Computes `depositRate = conversionRate / 1e18` and
`percentageDiff = (marketRate - depositRate) / marketRate * 100`, then
runs the per-user loop over the candidates. -/
def checkSniperOpportunity (env : SniperEnv) (depositId depositAmount : Nat)
    (currencyCode : Option String) (conversionRate : Nat)
    (platform : String) : List Int × List Alert × Option Int :=
  match currencyCode with
  | none => ([], [], none)
  | some code =>
    match resolveMarketRate env code with
    | none => ([], [], none)
    | some marketRate =>
      let depositRate : ℚ := (conversionRate : ℚ) / 10 ^ 18
      let pd : ℚ := (marketRate - depositRate) / marketRate * 100
      sniperLoop env
        (fun c =>
          ⟨c, depositId, code, platform, depositRate, marketRate, pd,
            depositAmount⟩)
        pd (sniperCandidates env.interestedUsers)

/-- Concrete environment for the boundary example: subscriber 1 with
threshold 5, subscriber 2 with threshold 5.01, the broadcast group set to
100 so it stays silent, every delivery succeeding. -/
def envAllOk : SniperEnv :=
  ⟨none, none,
    fun c => if c = 1 then some 5 else if c = 2 then some 5.01 else some 100,
    [1, 2], fun _ => .ok ()⟩

/-- Concrete environment where every subscriber has threshold 1 and the
delivery for subscriber 1 rejects. -/
def envFailFirst : SniperEnv :=
  ⟨none, none, fun _ => some 1, [1, 2],
    fun c => if c = 1 then .error () else .ok ()⟩

/-! ### Resilient WebSocket provider (bot.js 659-942, 2472-2481)

The provider's recovery logic is a state machine over the instance fields
`reconnectAttempts`, `isConnecting`, `isDestroyed` and the two pending
timers (`reconnectTimer` from `scheduleReconnect`, and the fixed 3 s settle
timer set by `restart`).  Stimuli are modelled as events: a transport
error/close/watchdog firing (`scheduleReconnect`), a pending timer firing
(whose connect attempt succeeds or fails, collapsing the awaited handshake
into the event), a manual `restart()` (invoked e.g. by the 2-minute
health-check interval whenever `isConnected` is false, bot.js 2472-2481),
and `destroy()`.  A step reports whether it performed a Connecting
transition (an entry into `connect()` that passes the
`isConnecting || isDestroyed` guard and opens a transport). -/

/-- Connection-manager instance state. -/
structure WSState where
  reconnectAttempts : Nat
  isConnecting : Bool
  isDestroyed : Bool
  reconnectTimer : Bool
  settleTimer : Bool
deriving DecidableEq, Repr

/-- Fields as initialised by the constructor (bot.js 665-674). -/
def initWS : WSState :=
  ⟨0, false, false, false, false⟩

/-- The delay computed by `scheduleReconnect` (bot.js 881-884) once the
attempt counter holds `attempts`:
`Math.min(reconnectDelay * Math.pow(1.5, attempts), maxReconnectDelay)`
with `reconnectDelay = 1000` and `maxReconnectDelay = 30000` (bot.js
665-666, never changed to other values). -/
def scheduleDelay (reconnectDelay : ℚ) (attempts : Nat)
    (maxReconnectDelay : ℚ) : ℚ :=
  min (reconnectDelay * (3 / 2 : ℚ) ^ attempts) maxReconnectDelay

/-- `scheduleReconnect` (bot.js 864-893): no-op while connecting or
destroyed; otherwise clear any pending reconnect timer, increment the
attempt counter, and either stop permanently when the counter exceeds
`maxReconnectAttempts = 50` (only logging) or arm the reconnect timer with
`scheduleDelay`. -/
def scheduleReconnect (s : WSState) : WSState :=
  if s.isConnecting || s.isDestroyed then s
  else
    let a := s.reconnectAttempts + 1
    if a > 50 then { s with reconnectAttempts := a, reconnectTimer := false }
    else { s with reconnectAttempts := a, reconnectTimer := true }

/-- One run of `connect()` (bot.js 679-731) with handshake outcome `ok`:
the `isConnecting || isDestroyed` guard first; a passed guard is a
Connecting transition.  Success resets the attempt counter (and
`reconnectDelay` to its floor); failure clears `isConnecting` and calls
`scheduleReconnect` (the instance is not destroyed here, the timer
callbacks already checked that). -/
def connectAttempt (ok : Bool) (s : WSState) : WSState × Bool :=
  if s.isConnecting || s.isDestroyed then (s, false)
  else if ok then ({ s with reconnectAttempts := 0, isConnecting := false }, true)
  else (scheduleReconnect { s with isConnecting := false }, true)

/-- External stimuli of the provider state machine. -/
inductive WSEvent where
  | transportError
  | reconnectFire (ok : Bool)
  | restartRequest
  | settleFire (ok : Bool)
  | destroyRequest
deriving DecidableEq, Repr

/-- One event step.  `transportError` covers the ws close/error handlers,
the provider error handler and the 90 s watchdog, all of which call
`scheduleReconnect` when not destroyed.  `reconnectFire ok` is the pending
reconnect timer firing (callback runs `connect()` unless destroyed,
bot.js 888-892); `settleFire ok` likewise for the 3 s timer set by
`restart()` (bot.js 910-914).  `restartRequest` is `restart()` (bot.js
896-915): reset the attempt counter and delay, cancel the reconnect timer,
clean up, and arm the settle timer.  `destroyRequest` is `destroy()`
(bot.js 918-930): set `isDestroyed` and cancel the timers.  The returned
flag reports a Connecting transition. -/
def stepWS (s : WSState) : WSEvent → WSState × Bool
  | .transportError =>
    if s.isDestroyed then (s, false) else (scheduleReconnect s, false)
  | .reconnectFire ok =>
    if s.reconnectTimer then
      let s₁ := { s with reconnectTimer := false }
      if s₁.isDestroyed then (s₁, false) else connectAttempt ok s₁
    else (s, false)
  | .restartRequest =>
    ({ s with reconnectAttempts := 0, reconnectTimer := false,
              settleTimer := true }, false)
  | .settleFire ok =>
    if s.settleTimer then
      let s₁ := { s with settleTimer := false }
      if s₁.isDestroyed then (s₁, false) else connectAttempt ok s₁
    else (s, false)
  | .destroyRequest =>
    ({ s with isDestroyed := true, reconnectTimer := false,
              settleTimer := false }, false)

/-- Run a trace of events, collecting per-event Connecting-transition
flags. -/
def runWS (s : WSState) : List WSEvent → WSState × List Bool
  | [] => (s, [])
  | e :: rest =>
    let r := stepWS s e
    let t := runWS r.1 rest
    (t.1, r.2 :: t.2)

/-- A provider whose reconnect scheduler has stopped: the attempt counter
exceeded `maxReconnectAttempts = 50` and no reconnect or settle timer is
pending. -/
def wsHalted (s : WSState) : Prop :=
  50 < s.reconnectAttempts ∧ s.reconnectTimer = false ∧ s.settleTimer = false

/-- The `isConnected` getter (bot.js 936-941): the transport must exist
and report `readyState === 1` (collapsed into `wsOpen`), and the last
observed activity must be younger than 120000 ms. -/
def isConnected (wsOpen : Bool) (now lastActivityTime : Nat) : Bool :=
  wsOpen && decide (now - lastActivityTime < 120000)

/-! ## Helper lemmas -/

theorem mem_setAdd {l : List Nat} {x i : Nat} :
    i ∈ setAdd l x ↔ i ∈ l ∨ i = x := by
  unfold setAdd
  by_cases hx : x ∈ l
  · rw [if_pos hx]
    constructor
    · exact Or.inl
    · rintro (h | rfl)
      · exact h
      · exact hx
  · rw [if_neg hx]
    simp

theorem nodup_setAdd {l : List Nat} {x : Nat} (h : l.Nodup) :
    (setAdd l x).Nodup := by
  unfold setAdd
  by_cases hx : x ∈ l
  · rwa [if_pos hx]
  · rw [if_neg hx]
    simp [List.nodup_append, h, hx]

theorem mapGet_mapSet_self (m : List (Nat × RawIntent)) (k : Nat)
    (v : RawIntent) : mapGet (mapSet m k v) k = some v := by
  induction m with
  | nil => simp [mapSet, mapGet]
  | cons p rest ih =>
    obtain ⟨k₀, v₀⟩ := p
    by_cases h : k₀ = k
    · subst h
      simp [mapSet, mapGet]
    · simp [mapSet, mapGet, h, ih]

theorem mapGet_mapSet_ne (m : List (Nat × RawIntent)) (k : Nat)
    (v : RawIntent) {i : Nat} (h : i ≠ k) :
    mapGet (mapSet m k v) i = mapGet m i := by
  induction m with
  | nil => simp [mapSet, mapGet, Ne.symm h]
  | cons p rest ih =>
    obtain ⟨k₀, v₀⟩ := p
    by_cases hk : k₀ = k
    · subst hk
      simp [mapSet, mapGet, Ne.symm h]
    · simp [mapSet, mapGet, hk, ih]

theorem recordEvent_rawIntents (tx : PendingTx) (e : TxEvent) :
    (recordEvent tx e).rawIntents =
      mapSet tx.rawIntents e.intentId ⟨e.intentId, e.kind, e.source⟩ := by
  obtain ⟨i, k, s⟩ := e
  cases k <;> rfl

theorem inv_recordEvent {tx : PendingTx} (h : PendingTxInv tx) (e : TxEvent) :
    PendingTxInv (recordEvent tx e) := by
  obtain ⟨hf, hp, hsome⟩ := h
  obtain ⟨eid, k, s⟩ := e
  have key : ∀ (tx₁ : PendingTx), tx₁.rawIntents =
      mapSet tx.rawIntents eid ⟨eid, k, s⟩ →
      (∀ i, i ∈ tx₁.fulfilled ∨ i ∈ tx₁.pruned →
        (i ∈ tx.fulfilled ∨ i ∈ tx.pruned) ∨ i = eid) →
      ∀ i, i ∈ tx₁.fulfilled ∨ i ∈ tx₁.pruned →
        (mapGet tx₁.rawIntents i).isSome = true := by
    intro tx₁ hraw hmem i hi
    rw [hraw]
    by_cases hie : i = eid
    · subst hie
      rw [mapGet_mapSet_self]
      rfl
    · rw [mapGet_mapSet_ne _ _ _ hie]
      rcases hmem i hi with h₀ | h₀
      · exact hsome i h₀
      · exact absurd h₀ hie
  cases k
  · exact ⟨nodup_setAdd hf, hp, key _ rfl (by
      intro i hi
      rcases hi with hi | hi
      · rcases mem_setAdd.mp hi with h₀ | h₀
        · exact Or.inl (Or.inl h₀)
        · exact Or.inr h₀
      · exact Or.inl (Or.inr hi))⟩
  · exact ⟨hf, nodup_setAdd hp, key _ rfl (by
      intro i hi
      rcases hi with hi | hi
      · exact Or.inl (Or.inl hi)
      · rcases mem_setAdd.mp hi with h₀ | h₀
        · exact Or.inl (Or.inr h₀)
        · exact Or.inr h₀)⟩

theorem inv_foldl (events : List TxEvent) :
    ∀ (tx : PendingTx), PendingTxInv tx →
      PendingTxInv (events.foldl recordEvent tx) := by
  induction events with
  | nil => intro tx h; exact h
  | cons e rest ih =>
    intro tx h
    rw [List.foldl_cons]
    exact ih _ (inv_recordEvent h e)

theorem inv_buildPendingTx (events : List TxEvent) :
    PendingTxInv (buildPendingTx events) := by
  refine inv_foldl events _ ⟨List.nodup_nil, List.nodup_nil, ?_⟩
  intro i hi
  rcases hi with hi | hi <;> simp at hi

theorem mem_foldl_ids (events : List TxEvent) :
    ∀ (tx : PendingTx) (i : Nat),
      (i ∈ (events.foldl recordEvent tx).fulfilled ∨
        i ∈ (events.foldl recordEvent tx).pruned) ↔
      (i ∈ tx.fulfilled ∨ i ∈ tx.pruned ∨ i ∈ events.map TxEvent.intentId) := by
  induction events with
  | nil => intro tx i; simp
  | cons e rest ih =>
    intro tx i
    rw [List.foldl_cons]
    have hrec : (i ∈ (recordEvent tx e).fulfilled ∨
        i ∈ (recordEvent tx e).pruned) ↔
        (i ∈ tx.fulfilled ∨ i ∈ tx.pruned ∨ i = e.intentId) := by
      obtain ⟨eid, k, s⟩ := e
      cases k <;>
        first
        | (simp [recordEvent, mem_setAdd]; tauto)
        | simp [recordEvent, mem_setAdd]
    have hih := ih (recordEvent tx e) i
    simp only [List.map_cons, List.mem_cons]
    tauto

theorem mapGet_foldl_source (events : List TxEvent) :
    ∀ (tx : PendingTx) (i : Nat) (raw : RawIntent),
      mapGet (events.foldl recordEvent tx).rawIntents i = some raw →
      mapGet tx.rawIntents i = some raw ∨
        ∃ e ∈ events, e.intentId = i ∧ raw = ⟨i, e.kind, e.source⟩ := by
  induction events with
  | nil => intro tx i raw h; exact Or.inl h
  | cons e rest ih =>
    intro tx i raw h
    rw [List.foldl_cons] at h
    rcases ih (recordEvent tx e) i raw h with h₁ | h₁
    · rw [recordEvent_rawIntents] at h₁
      by_cases hie : i = e.intentId
      · subst hie
        rw [mapGet_mapSet_self] at h₁
        injection h₁ with h₁
        exact Or.inr ⟨e, List.mem_cons_self e rest, rfl, h₁.symm⟩
      · rw [mapGet_mapSet_ne _ _ _ hie] at h₁
        exact Or.inl h₁
    · obtain ⟨e₁, he₁, hh⟩ := h₁
      exact Or.inr ⟨e₁, List.mem_cons_of_mem e he₁, hh⟩

theorem countP_filterMap_outcome (i : Nat) (g : Nat → Option Outcome)
    (hg : ∀ j o, g j = some o → o.intentId = j) :
    ∀ l : List Nat, l.Nodup →
      ((l.filterMap g).countP fun o => o.intentId == i) =
        if i ∈ l ∧ (g i).isSome = true then 1 else 0 := by
  intro l
  induction l with
  | nil => intro _; simp
  | cons j rest ih =>
    intro hnd
    rw [List.nodup_cons] at hnd
    obtain ⟨hj, hrest⟩ := hnd
    have IH := ih hrest
    by_cases hji : j = i
    · subst hji
      cases hgj : g j with
      | none => simp [List.filterMap_cons, hgj, IH, hj]
      | some o =>
        have ho : o.intentId = j := hg _ _ hgj
        simp [List.filterMap_cons, hgj, List.countP_cons, IH, hj, ho]
    · have hmem : (i ∈ j :: rest) ↔ i ∈ rest := by
        simp [Ne.symm hji]
      cases hgj : g j with
      | none => simp [List.filterMap_cons, hgj, IH, hmem]
      | some o =>
        have ho : o.intentId = j := hg _ _ hgj
        have hne : (o.intentId == i) = false := by
          simp [ho, hji]
        simp [List.filterMap_cons, hgj, List.countP_cons, hne, IH, hmem]

theorem prunedDispatch_intentId {tx : PendingTx} :
    ∀ j o, prunedDispatch tx j = some o → o.intentId = j := by
  intro j o h
  unfold prunedDispatch at h
  by_cases hjf : j ∈ tx.fulfilled
  · rw [if_pos hjf] at h
    cases h
  · rw [if_neg hjf] at h
    cases hm : mapGet tx.rawIntents j with
    | none => rw [hm] at h; cases h
    | some raw =>
      rw [hm] at h
      injection h with h
      rw [← h]

theorem fulfilledDispatch_intentId {tx : PendingTx} :
    ∀ j o, fulfilledDispatch tx j = some o → o.intentId = j := by
  intro j o h
  unfold fulfilledDispatch at h
  cases hm : mapGet tx.rawIntents j with
  | none => rw [hm] at h; cases h
  | some raw =>
    rw [hm] at h
    injection h with h
    rw [← h]

theorem countP_process (tx : PendingTx) (hinv : PendingTxInv tx) (i : Nat) :
    ((processCompletedTransaction tx).countP fun o => o.intentId == i) =
      if i ∈ tx.fulfilled ∨ i ∈ tx.pruned then 1 else 0 := by
  obtain ⟨hf, hp, hsome⟩ := hinv
  unfold processCompletedTransaction
  rw [List.countP_append,
    countP_filterMap_outcome i (prunedDispatch tx) prunedDispatch_intentId
      tx.pruned hp,
    countP_filterMap_outcome i (fulfilledDispatch tx) fulfilledDispatch_intentId
      tx.fulfilled hf]
  by_cases hif : i ∈ tx.fulfilled
  · have hs : (mapGet tx.rawIntents i).isSome = true :=
      hsome i (Or.inl hif)
    obtain ⟨raw, hraw⟩ := Option.isSome_iff_exists.mp hs
    rw [if_neg (by simp [prunedDispatch, hif]),
      if_pos ⟨hif, by simp [fulfilledDispatch, hraw]⟩, if_pos (Or.inl hif)]
  · by_cases hip : i ∈ tx.pruned
    · have hs : (mapGet tx.rawIntents i).isSome = true :=
        hsome i (Or.inr hip)
      obtain ⟨raw, hraw⟩ := Option.isSome_iff_exists.mp hs
      rw [if_pos ⟨hip, by simp [prunedDispatch, if_neg hif, hraw]⟩,
        if_neg (by simp [hif]), if_pos (Or.inr hip)]
    · rw [if_neg (by simp [hip]), if_neg (by simp [hif]),
        if_neg (by simp [hif, hip])]

theorem mem_process {tx : PendingTx} {o : Outcome}
    (h : o ∈ processCompletedTransaction tx) :
    mapGet tx.rawIntents o.intentId = some o.raw ∧
      (o.intentId ∈ tx.fulfilled → o.kind = .fulfilled) := by
  unfold processCompletedTransaction at h
  rcases List.mem_append.mp h with h | h
  · obtain ⟨j, hj, hout⟩ := List.mem_filterMap.mp h
    unfold prunedDispatch at hout
    by_cases hjf : j ∈ tx.fulfilled
    · rw [if_pos hjf] at hout
      cases hout
    · rw [if_neg hjf] at hout
      cases hm : mapGet tx.rawIntents j with
      | none => rw [hm] at hout; cases hout
      | some raw =>
        rw [hm] at hout
        injection hout with hout
        rw [← hout]
        exact ⟨hm, fun hh => absurd hh hjf⟩
  · obtain ⟨j, hj, hout⟩ := List.mem_filterMap.mp h
    unfold fulfilledDispatch at hout
    cases hm : mapGet tx.rawIntents j with
    | none => rw [hm] at hout; cases hout
    | some raw =>
      rw [hm] at hout
      injection hout with hout
      rw [← hout]
      exact ⟨hm, fun _ => rfl⟩

theorem deliverOutcome_eq_some {details : Nat → Bool} {o₁ o : Outcome}
    (h : deliverOutcome details o₁ = some o) :
    o₁ = o ∧ (o.raw.source = .orchestrator → details o.intentId = true) := by
  unfold deliverOutcome at h
  cases hs : o₁.raw.source with
  | escrow =>
    rw [hs] at h
    injection h with h
    subst h
    exact ⟨rfl, fun hh => absurd hh (by rw [hs]; intro hc; cases hc)⟩
  | orchestrator =>
    rw [hs] at h
    by_cases hd : details o₁.intentId
    · rw [if_pos hd] at h
      injection h with h
      subst h
      exact ⟨rfl, fun _ => hd⟩
    · rw [if_neg hd] at h
      cases h

theorem sniperLoop_ok (env : SniperEnv) (mk : Int → Alert) (pd : ℚ) :
    ∀ l : List Int, (∀ c ∈ l, env.delivery c = Except.ok ()) →
      sniperLoop env mk pd l =
        (l,
          (l.filter fun c =>
            decide (pd ≥ getUserThreshold (env.thresholds c))).map mk,
          none) := by
  intro l
  induction l with
  | nil => intro _; rfl
  | cons c rest ih =>
    intro hok
    have hc := hok c (List.mem_cons_self c rest)
    have hrest := ih fun x hx => hok x (List.mem_cons_of_mem c hx)
    by_cases hpd : pd ≥ getUserThreshold (env.thresholds c)
    · simp [sniperLoop, hpd, hc, hrest, List.filter_cons]
    · simp [sniperLoop, hpd, hrest, List.filter_cons]

theorem count_filter_map_alerts (mk : Int → Alert)
    (hmk : ∀ x, (mk x).chatId = x) (p : Int → Bool) (c : Int) :
    ∀ l : List Int, l.Nodup →
      (((l.filter p).map mk).countP fun a => a.chatId == c) =
        if c ∈ l ∧ p c then 1 else 0 := by
  intro l
  induction l with
  | nil => intro _; simp
  | cons x rest ih =>
    intro hnd
    rw [List.nodup_cons] at hnd
    obtain ⟨hx, hrest⟩ := hnd
    have IH := ih hrest
    by_cases hxc : x = c
    · subst hxc
      by_cases hp : p x
      · simp [List.filter_cons, hp, List.countP_cons, hmk, IH, hx]
      · simp [List.filter_cons, hp, IH, hx]
    · by_cases hp : p x
      · have hne : ((mk x).chatId == c) = false := by simp [hmk, hxc]
        simp [List.filter_cons, hp, List.countP_cons, hne, IH, Ne.symm hxc]
      · simp [List.filter_cons, hp, IH, Ne.symm hxc]

theorem stepWS_halted {s : WSState} (h : wsHalted s) {e : WSEvent}
    (he : e ≠ WSEvent.restartRequest) :
    wsHalted (stepWS s e).1 ∧ (stepWS s e).2 = false := by
  obtain ⟨ha, hrt, hst⟩ := h
  cases e with
  | transportError =>
    by_cases hd : s.isDestroyed
    · simp [stepWS, hd, wsHalted, ha, hrt, hst]
    · by_cases hc : s.isConnecting
      · simp [stepWS, scheduleReconnect, hd, hc, wsHalted, ha, hrt, hst]
      · have hgt : s.reconnectAttempts + 1 > 50 := by omega
        simp [stepWS, scheduleReconnect, hd, hc, hgt, wsHalted, hst]
  | reconnectFire ok => simp [stepWS, hrt, wsHalted, ha, hst]
  | restartRequest => exact absurd rfl he
  | settleFire ok => simp [stepWS, hst, wsHalted, ha, hrt]
  | destroyRequest => simp [stepWS, wsHalted, ha]

theorem runWS_halted_flags {s : WSState} (hs : wsHalted s) :
    ∀ (evs : List WSEvent), (∀ e ∈ evs, e ≠ WSEvent.restartRequest) →
      ∀ b ∈ (runWS s evs).2, b = false := by
  intro evs
  induction evs generalizing s with
  | nil =>
    intro _ b hb
    simp [runWS] at hb
  | cons e rest ih =>
    intro hr b hb
    have hstep := stepWS_halted hs (hr e (List.mem_cons_self e rest))
    simp only [runWS, List.mem_cons] at hb
    rcases hb with hb | hb
    · rw [hb, hstep.2]
    · exact ih hstep.1 (fun x hx => hr x (List.mem_cons_of_mem e hx)) b hb

/-! ## Claim theorems -/

/-- C1: for every sequence of IntentFulfilled/IntentPruned events sharing
one transaction hash, the one-shot reconciliation
(`processCompletedTransaction` on the entry built from the events) emits
exactly one outcome per distinct intentId appearing in the events; and for
any intentId recorded in both the fulfilled set and the pruned set, every
outcome emitted for it is a fulfilment (so the single outcome is
"fulfilled" and no cancellation notice is emitted for it). -/
theorem claim_C1 (events : List TxEvent) (i : Nat) :
    ((processCompletedTransaction (buildPendingTx events)).countP
        fun o => o.intentId == i) =
      (if i ∈ events.map TxEvent.intentId then 1 else 0) ∧
    (i ∈ (buildPendingTx events).fulfilled →
      i ∈ (buildPendingTx events).pruned →
      ∀ o ∈ processCompletedTransaction (buildPendingTx events),
        o.intentId = i → o.kind = .fulfilled) := by
  constructor
  · rw [countP_process _ (inv_buildPendingTx events) i]
    have hcond : (i ∈ (buildPendingTx events).fulfilled ∨
        i ∈ (buildPendingTx events).pruned) ↔
        i ∈ events.map TxEvent.intentId := by
      have := mem_foldl_ids events ⟨[], [], []⟩ i
      simpa [buildPendingTx] using this
    rw [if_congr hcond rfl rfl]
  · intro hif _ o ho hoi
    exact (mem_process ho).2 (hoi ▸ hif)

/-- Witness for C1: a transaction whose single intent 7 is both pruned and
fulfilled yields exactly one outcome, and every outcome for 7 is a
fulfilment. -/
theorem claim_C1_witness :
    ((processCompletedTransaction (buildPendingTx
        [⟨7, .pruned, .escrow⟩, ⟨7, .fulfilled, .escrow⟩])).countP
        fun o => o.intentId == 7) = 1 ∧
    ∀ o ∈ processCompletedTransaction (buildPendingTx
        [⟨7, .pruned, .escrow⟩, ⟨7, .fulfilled, .escrow⟩]),
      o.intentId = 7 → o.kind = .fulfilled := by
  have h := claim_C1 [⟨7, .pruned, .escrow⟩, ⟨7, .fulfilled, .escrow⟩] 7
  exact ⟨by simpa using h.1, h.2 (by decide) (by decide)⟩

/-- C10: for an orchestrator-contract intent with no entry in the stored
intent-details map, both reconciliation notifications are silently skipped
by the stored-details guard, so the intent yields zero delivered outcomes —
even though the reconciliation dispatched exactly one outcome for it. -/
theorem claim_C10 (events : List TxEvent) (i : Nat) (details : Nat → Bool)
    (hsrc : ∀ e ∈ events, e.intentId = i → e.source = EvSource.orchestrator)
    (hdet : details i = false) :
    ((deliveredNotifications details (buildPendingTx events)).countP
        fun o => o.intentId == i) = 0 ∧
    (i ∈ events.map TxEvent.intentId →
      ((processCompletedTransaction (buildPendingTx events)).countP
        fun o => o.intentId == i) = 1) := by
  constructor
  · rw [List.countP_eq_zero]
    intro o ho
    simp only [beq_iff_eq]
    intro hoi
    obtain ⟨o₁, ho₁, hdel⟩ := List.mem_filterMap.mp ho
    obtain ⟨rfl, hgate⟩ := deliverOutcome_eq_some hdel
    have hmap := (mem_process ho₁).1
    rw [hoi] at hmap
    rcases mapGet_foldl_source events ⟨[], [], []⟩ i _ hmap with h₀ | h₀
    · cases h₀
    · obtain ⟨e, he, hei, hraw⟩ := h₀
      have hos : o₁.raw.source = .orchestrator := by
        rw [hraw]
        exact hsrc e he hei
      have hfin := hgate hos
      rw [hoi, hdet] at hfin
      cases hfin
  · intro hmem
    rw [countP_process _ (inv_buildPendingTx events) i, if_pos]
    have := mem_foldl_ids events ⟨[], [], []⟩ i
    exact this.mpr (Or.inr (Or.inr hmem))

/-- C2: with the market rate resolved and every delivery succeeding, each
candidate subscriber receives exactly one alert when
`percentDiff = (marketRate - conversionRate/1e18)/marketRate*100` is at
least their threshold (inclusive) and none otherwise; in particular
depositRate 0.95 against marketRate 1.00 gives percentDiff exactly 5, so
with thresholds 5 and 5.01 only the threshold-5 subscriber is alerted. -/
theorem claim_C2 :
    (∀ (env : SniperEnv) (dep amt : Nat) (code : String) (cr : Nat)
        (pf : String) (mr : ℚ),
      resolveMarketRate env code = some mr →
      (∀ c, env.delivery c = Except.ok ()) →
      (sniperCandidates env.interestedUsers).Nodup →
      ∀ c ∈ sniperCandidates env.interestedUsers,
        ((checkSniperOpportunity env dep amt (some code) cr pf).2.1.countP
            fun a => a.chatId == c) =
          if (mr - (cr : ℚ) / 10 ^ 18) / mr * 100 ≥
              getUserThreshold (env.thresholds c) then 1 else 0) ∧
    ((1 : ℚ) - (95 * 10 ^ 16 : ℚ) / 10 ^ 18) / 1 * 100 = 5 ∧
    (checkSniperOpportunity envAllOk 3 1000000 (some "USD") (95 * 10 ^ 16)
        "wise").2.1.map Alert.chatId = [1] := by
  refine ⟨?_, by norm_num, ?_⟩
  · intro env dep amt code cr pf mr hmr hok hnd c hc
    simp only [checkSniperOpportunity, hmr]
    rw [sniperLoop_ok env _ _ (sniperCandidates env.interestedUsers)
      (fun x _ => hok x)]
    rw [count_filter_map_alerts _ (fun x => rfl) _ c
      (sniperCandidates env.interestedUsers) hnd]
    simp [hc]
  · simp [checkSniperOpportunity, resolveMarketRate, sniperCandidates,
      ZKP2P_GROUP_ID, sniperLoop, getUserThreshold, envAllOk]
    norm_num

/-- Witness for C2: in the boundary environment, subscriber 1 (threshold
5.0) is alerted exactly once for the 0.95-vs-1.00 deposit. -/
theorem claim_C2_witness :
    ((checkSniperOpportunity envAllOk 3 1000000 (some "USD")
        (95 * 10 ^ 16) "wise").2.1.countP fun a => a.chatId == 1) = 1 := by
  have h := claim_C2.1 envAllOk 3 1000000 "USD" (95 * 10 ^ 16) "wise" 1
    rfl (fun _ => rfl) (by decide) 1 (by decide)
  rw [if_pos (by norm_num [envAllOk, getUserThreshold])] at h
  exact h

/-- C4 as stated is false; amended: the per-subscriber alert loop is
sequential — when every delivery succeeds all candidates are evaluated,
but a rejecting delivery for one candidate aborts the loop, so exactly the
candidates up to and including the failing one are evaluated and
candidates after it are neither evaluated nor alerted. -/
theorem claim_C4 :
    (∀ (env : SniperEnv) (mk : Int → Alert) (pd : ℚ) (l : List Int),
      (∀ x ∈ l, env.delivery x = Except.ok ()) →
      (sniperLoop env mk pd l).1 = l) ∧
    (∀ (env : SniperEnv) (mk : Int → Alert) (pd : ℚ) (l₁ : List Int)
        (c : Int) (l₂ : List Int),
      (∀ x ∈ l₁, env.delivery x = Except.ok ()) →
      env.delivery c = Except.error () →
      pd ≥ getUserThreshold (env.thresholds c) →
      sniperLoop env mk pd (l₁ ++ c :: l₂) =
        (l₁ ++ [c],
          (l₁.filter fun x =>
            decide (pd ≥ getUserThreshold (env.thresholds x))).map mk,
          some c)) := by
  constructor
  · intro env mk pd l hok
    rw [sniperLoop_ok env mk pd l hok]
  · intro env mk pd l₁ c l₂ hok hfail hpd
    induction l₁ with
    | nil => simp [sniperLoop, hpd, hfail]
    | cons x rest ih =>
      have hx := hok x (List.mem_cons_self x rest)
      have ihh := ih fun y hy => hok y (List.mem_cons_of_mem x hy)
      by_cases hpx : pd ≥ getUserThreshold (env.thresholds x)
      · simp [sniperLoop, hpx, hx, ihh, List.filter_cons]
      · simp [sniperLoop, hpx, ihh, List.filter_cons]

/-- Witness for C4 (amended): with the first delivery rejecting, only
subscriber 1 is evaluated, no alert is recorded, and the loop reports the
failure. -/
theorem claim_C4_witness :
    sniperLoop envFailFirst (fun x => ⟨x, 0, "USD", "wise", 0, 0, 0, 0⟩) 5
      [1, 2] = ([1], [], some 1) := by
  have h := claim_C4.2 envFailFirst
    (fun x => ⟨x, 0, "USD", "wise", 0, 0, 0, 0⟩) 5 [] 1 [2]
    (fun x hx => absurd hx (List.not_mem_nil x)) rfl
    (by norm_num [envFailFirst, getUserThreshold])
  simpa using h

/-- Counterexample to C4 as stated: in `envFailFirst` every candidate
meets its threshold, yet the rejected delivery for subscriber 1 leaves
subscriber 2 unevaluated and unalerted. -/
theorem claim_C4_counterexample :
    (checkSniperOpportunity envFailFirst 0 0 (some "USD") (95 * 10 ^ 16)
        "wise").1 = [1] ∧
    (checkSniperOpportunity envFailFirst 0 0 (some "USD") (95 * 10 ^ 16)
        "wise").2.1 = [] ∧
    ((1 : ℚ) - (95 * 10 ^ 16 : ℚ) / 10 ^ 18) / 1 * 100 ≥
      getUserThreshold (envFailFirst.thresholds 2) := by
  refine ⟨?_, ?_, ?_⟩
  · simp [checkSniperOpportunity, resolveMarketRate, sniperCandidates,
      ZKP2P_GROUP_ID, sniperLoop, getUserThreshold, envFailFirst]
    norm_num
  · simp [checkSniperOpportunity, resolveMarketRate, sniperCandidates,
      ZKP2P_GROUP_ID, sniperLoop, getUserThreshold, envFailFirst]
    norm_num
  · norm_num [envFailFirst, getUserThreshold]

/-- C3 as stated is false; amended: once more than 50 reconnection
attempts have been made (the cap-exceeded branch of `scheduleReconnect`,
which leaves no timer pending), no further Connecting transition occurs as
long as no `restart()` request arrives — but `restart()` (invoked by the
health-check interval whenever the provider reports disconnected) resets
the attempt counter and re-enters Connecting, so the halt is not
permanent.  This theorem proves the restart-free part. -/
theorem claim_C3 (s : WSState) (evs : List WSEvent) (hs : wsHalted s)
    (hr : ∀ e ∈ evs, e ≠ WSEvent.restartRequest) :
    true ∉ (runWS s evs).2 := by
  intro hmem
  have := runWS_halted_flags hs evs hr true hmem
  cases this

/-- Witness for C3 (amended): from a capped state, a transport error and a
timer event produce no Connecting transition. -/
theorem claim_C3_witness :
    true ∉ (runWS ⟨51, false, false, false, false⟩
      [WSEvent.transportError, WSEvent.reconnectFire true]).2 :=
  claim_C3 ⟨51, false, false, false, false⟩
    [WSEvent.transportError, WSEvent.reconnectFire true]
    ⟨by decide, rfl, rfl⟩ (by decide)

set_option maxRecDepth 8000 in
/-- Counterexample to C3 as stated: after 51 transport errors the attempt
counter exceeds the cap of 50 (recovery halted), yet a subsequent
`restart()` — as issued by the health-check interval — followed by its
settle timer produces another Connecting transition. -/
theorem claim_C3_counterexample :
    50 < ((runWS initWS (List.replicate 51 WSEvent.transportError)).1).reconnectAttempts ∧
    (runWS ((runWS initWS (List.replicate 51 WSEvent.transportError)).1)
        [WSEvent.restartRequest, WSEvent.settleFire true]).2 = [false, true] := by
  decide

/-- C5: after one successful fetch at time `t₀` installed the cache, every
read within the 60 s freshness window serves the cached value with no
outbound fetch and leaves the state unchanged, and a read after the window
expired performs exactly one outbound fetch; this holds for the general
multi-currency slot (`getExchangeRates`) and the dedicated ARS slot
(`getARSRate`, whose cached value must additionally be truthy). -/
theorem claim_C5 :
    (∀ (α : Type) (t₀ : Nat) (r : α) (s : RateCache α),
      s.cache = none →
      getExchangeRates t₀ (some r) s = (some r, true, ⟨some r, t₀⟩)) ∧
    (∀ (α : Type) (t₀ t : Nat) (r : α) (fr : Option α),
      t - t₀ < 60000 →
      getExchangeRates t fr ⟨some r, t₀⟩ = (some r, false, ⟨some r, t₀⟩)) ∧
    (∀ (α : Type) (t₀ t : Nat) (r : α) (fr : Option α),
      60000 ≤ t - t₀ →
      (getExchangeRates t fr ⟨some r, t₀⟩).2.1 = true) ∧
    (∀ (t₀ t : Nat) (r : ℚ) (fr : Option ℚ),
      r ≠ 0 → t - t₀ < 60000 →
      getARSRate t fr ⟨some r, t₀⟩ = (some r, false, ⟨some r, t₀⟩)) ∧
    (∀ (t₀ t : Nat) (r : ℚ) (fr : Option ℚ),
      60000 ≤ t - t₀ →
      (getARSRate t fr ⟨some r, t₀⟩).2.1 = true) := by
  refine ⟨?_, ?_, ?_, ?_, ?_⟩
  · intro α t₀ r s hnone
    simp [getExchangeRates, hnone]
  · intro α t₀ t r fr hfresh
    simp [getExchangeRates, hfresh]
  · intro α t₀ t r fr hexp
    have : ¬ (t - t₀ < 60000) := by omega
    cases fr <;> simp [getExchangeRates, this]
  · intro t₀ t r fr hr hfresh
    simp [getARSRate, hr, hfresh]
  · intro t₀ t r fr hexp
    have : ¬ (t - t₀ < 60000) := by omega
    cases fr <;> simp [getARSRate, this]

/-- Witness for C5: a concrete fresh read serves the cache without
fetching, and a concrete expired read fetches. -/
theorem claim_C5_witness :
    getExchangeRates 1000 (none : Option ℚ) ⟨some 7, 500⟩ =
      (some 7, false, ⟨some 7, 500⟩) ∧
    (getARSRate 70000 (none : Option ℚ) ⟨some 7, 500⟩).2.1 = true := by
  exact ⟨claim_C5.2.1 ℚ 500 1000 7 none (by omega),
    claim_C5.2.2.2.2 500 70000 7 none (by omega)⟩

/-- C6: a rate read whose cache is expired never serves the stale cached
value — it returns exactly what the refresh fetch produced, hence `none`
when the fetch fails or the payload is missing — and
`checkSniperOpportunity` then skips the cycle entirely, emitting no alert
(in particular when the general exchange-rate table is unavailable). -/
theorem claim_C6 :
    (∀ (α : Type) (s : RateCache α) (t : Nat) (fr : Option α),
      60000 ≤ t - s.lastFetch → (getExchangeRates t fr s).1 = fr) ∧
    (∀ (s : RateCache ℚ) (t : Nat) (fr : Option ℚ),
      60000 ≤ t - s.lastFetch → (getARSRate t fr s).1 = fr) ∧
    (∀ (env : SniperEnv) (dep amt : Nat) (code : String) (cr : Nat)
        (pf : String),
      resolveMarketRate env code = none →
      checkSniperOpportunity env dep amt (some code) cr pf = ([], [], none)) ∧
    (∀ (env : SniperEnv) (dep amt : Nat) (code : String) (cr : Nat)
        (pf : String),
      env.exchangeRates = none → code ≠ "ARS" → code ≠ "USD" →
      checkSniperOpportunity env dep amt (some code) cr pf =
        ([], [], none)) := by
  refine ⟨?_, ?_, ?_, ?_⟩
  · intro α s t fr hexp
    have : ¬ (t - s.lastFetch < 60000) := by omega
    cases fr <;> simp [getExchangeRates, this]
  · intro s t fr hexp
    have : ¬ (t - s.lastFetch < 60000) := by omega
    cases fr <;> simp [getARSRate, this]
  · intro env dep amt code cr pf hnone
    simp [checkSniperOpportunity, hnone]
  · intro env dep amt code cr pf hex ha hu
    have hnone : resolveMarketRate env code = none := by
      simp [resolveMarketRate, hex, ha, hu]
    simp [checkSniperOpportunity, hnone]

/-- Witness for C6: an expired slot holding 7 with a failed refresh reports
`none`, and a sniper check with the exchange table unavailable emits
nothing. -/
theorem claim_C6_witness :
    (getExchangeRates 70000 (none : Option ℚ) ⟨some 7, 500⟩).1 = none ∧
    checkSniperOpportunity
        ⟨none, none, fun _ => none, [], fun _ => Except.ok ()⟩
        1 1 (some "EUR") 1 "wise" = ([], [], none) := by
  exact ⟨claim_C6.1 ℚ ⟨some 7, 500⟩ 70000 none (by decide),
    claim_C6.2.2.2 _ 1 1 "EUR" 1 "wise" rfl (by decide) (by decide)⟩

/-- C8: `isConnected` is true only if the transport reports open and the
last activity is younger than 120 s; whenever no activity was observed for
120 s or more it is false even with the transport open. -/
theorem claim_C8 (wsOpen : Bool) (now lastActivityTime : Nat) :
    (isConnected wsOpen now lastActivityTime = true →
      wsOpen = true ∧ now - lastActivityTime < 120000) ∧
    (120000 ≤ now - lastActivityTime →
      isConnected wsOpen now lastActivityTime = false) := by
  constructor
  · intro h
    simpa [isConnected] using h
  · intro h
    simp [isConnected]
    intro _
    omega

/-- Witness for C8: exactly 120 s of silence with the transport open is
reported as disconnected. -/
theorem claim_C8_witness : isConnected true 120000 0 = false :=
  (claim_C8 true 120000 0).2 (by omega)

/-- C9: `getUserThreshold` reads the stored threshold through a
falsy-coercing default — it returns 0.2 when no row exists or the read
errored, and also when the stored threshold is exactly 0 — so the
effective threshold is never 0. -/
theorem claim_C9 :
    getUserThreshold none = 0.2 ∧ getUserThreshold (some 0) = 0.2 ∧
    ∀ stored, getUserThreshold stored ≠ 0 := by
  refine ⟨rfl, by norm_num [getUserThreshold], ?_⟩
  intro stored
  cases stored with
  | none => norm_num [getUserThreshold]
  | some t =>
    by_cases ht : t = 0
    · subst ht
      norm_num [getUserThreshold]
    · simp [getUserThreshold, ht]

/-- Witness for C9: a subscriber whose stored threshold is 0 is evaluated
with an effective threshold that is not 0. -/
theorem claim_C9_witness : getUserThreshold (some 0) ≠ 0 :=
  claim_C9.2.2 (some 0)

/-- C7: for every reconnection attempt `n` in 1..50 the scheduled delay
equals `min(1000 * 1.5^n, 30000)` ms, and the delays are monotonically
non-decreasing. -/
theorem claim_C7 (n : Nat) (_h₁ : 1 ≤ n) (_h₂ : n ≤ 50) :
    scheduleDelay 1000 n 30000 = min (1000 * (3 / 2 : ℚ) ^ n) 30000 ∧
    scheduleDelay 1000 n 30000 ≤ scheduleDelay 1000 (n + 1) 30000 := by
  constructor
  · rfl
  · unfold scheduleDelay
    refine min_le_min ?_ le_rfl
    have h32 : (1 : ℚ) ≤ 3 / 2 := by norm_num
    have hpow : (3 / 2 : ℚ) ^ n ≤ (3 / 2 : ℚ) ^ (n + 1) :=
      pow_le_pow_right₀ h32 (Nat.le_succ n)
    exact mul_le_mul_of_nonneg_left hpow (by norm_num)

/-- Witness for C7: attempt 1 is scheduled at `min(1500, 30000)` and the
delay for attempt 2 is no smaller. -/
theorem claim_C7_witness :
    scheduleDelay 1000 1 30000 = min (1000 * (3 / 2 : ℚ) ^ 1) 30000 ∧
    scheduleDelay 1000 1 30000 ≤ scheduleDelay 1000 2 30000 :=
  claim_C7 1 (by omega) (by omega)

/-- Witness for C10: an orchestrator fulfilment for intent 5 with an empty
details map is dispatched once but delivered zero times. -/
theorem claim_C10_witness :
    ((deliveredNotifications (fun _ => false) (buildPendingTx
        [⟨5, .fulfilled, .orchestrator⟩])).countP
        fun o => o.intentId == 5) = 0 ∧
    ((processCompletedTransaction (buildPendingTx
        [⟨5, .fulfilled, .orchestrator⟩])).countP
        fun o => o.intentId == 5) = 1 := by
  have h := claim_C10 [⟨5, .fulfilled, .orchestrator⟩] 5 (fun _ => false)
    (by decide) rfl
  exact ⟨h.1, h.2 (by decide)⟩

end TrackerBot
